import Mathlib

/-!
# Smart Loan Recovery — verification of the loan lifecycle core

Shallow embedding of the core logic of the `smart-loan-recovery` repository:
`src/models.rs` (entity model and risk scoring), `src/loan.rs` (the
`LoanTracker`: loan creation, repayment recording, overdue flagging) and
`src/recovery.rs` (the `RecoveryEngine`).

Modelling conventions:
- `chrono::DateTime<Utc>` instants are integers (seconds since the epoch);
  `chrono::Duration::days n` is `86400 * n` seconds.
- `f64` monetary amounts and risk scores are rationals `ℚ`.  Every float the
  core manipulates is one of the literals `0.1, 0.2, 0.4, 0.5, 0.7, 0.8`, and
  every comparison the code performs on them keeps the same truth value under
  the exact rational reading as under IEEE-754 doubles (the literals are
  separated by far more than the rounding error), so the rational model is
  faithful for the properties below.
- `Uuid` identifiers are natural numbers; `Uuid::new_v4` freshness is modelled
  by requiring the created identifier to be absent from the store.
- Fallible operations return `Option`/`Except`: `none` models a Rust panic
  (`unwrap` on `None`, out-of-bounds index), `Except.error` models a returned
  `Err`.
- The SQLite store (`db.rs`, table `loans` with `id` as primary key) is a list
  of loans; `save_loan` (an `INSERT OR REPLACE` keyed on `id`) replaces the
  record with the same `id`, or appends when none exists.
-/

namespace SmartLoanRecovery

/-- `LoanStatus` from `src/models.rs`. -/
inductive LoanStatus
  | Active
  | Overdue
  | Defaulted
  | Repaid
deriving DecidableEq

/-- `RecoveryAction` from `src/recovery.rs`. -/
inductive RecoveryAction
  | SendReminder
  | RenegotiateTerms
  | EscalateToCollection
deriving DecidableEq

/-- `chrono::Duration::days`: a day count as a number of seconds. -/
def Duration.days (n : Int) : Int := 86400 * n

/-- The `Loan` struct from `src/models.rs`.  Timestamps are `Int` seconds,
`f64` fields are `ℚ`, `Uuid` fields are `Nat`. -/
structure Loan where
  id : Nat
  borrower_id : Nat
  lender_id : Nat
  principal : ℚ
  interest_rate : ℚ
  disbursement_date : Int
  repayment_schedule : List Int
  start_date : Int
  last_repayment_date : Option Int
  status : LoanStatus
deriving DecidableEq

/-- The schedule loop of `LoanTracker::create_loan` (`src/loan.rs`):
`for m in 1..=duration_months { schedule.push(now + Duration::days(30 * m)) }`.
For `duration_months ≤ 0` the Rust range is empty and so is the schedule. -/
def buildSchedule (now : Int) (duration_months : Int) : List Int :=
  (List.range duration_months.toNat).map
    (fun (m : Nat) => now + Duration.days (30 * ((m : Int) + 1)))

/-- The loan value built by `LoanTracker::create_loan` (`src/loan.rs`, lines
16–44), with the fresh `Uuid` and the clock passed explicitly.  The Rust code
performs no validation of `duration_months` (or of `principal` /
`interest_rate`) before building the schedule. -/
def create_loan (id borrower_id lender_id : Nat) (principal interest_rate : ℚ)
    (duration_months : Int) (now : Int) : Loan :=
  { id := id
    borrower_id := borrower_id
    lender_id := lender_id
    principal := principal
    interest_rate := interest_rate
    disbursement_date := now
    repayment_schedule := buildSchedule now duration_months
    start_date := now
    last_repayment_date := none
    status := LoanStatus.Active }

/-- `Db::save_loan` (`src/db.rs`): `INSERT OR REPLACE` keyed on the `id`
primary key — replace the record with the same `id`, append otherwise. -/
def save_loan (loan : Loan) (loans : List Loan) : List Loan :=
  if loans.any (fun l => l.id == loan.id) then
    loans.map (fun l => if l.id == loan.id then loan else l)
  else
    loans ++ [loan]

/-- `Db::load_loan` (`src/db.rs`): look a loan up by `id`. -/
def load_loan (loan_id : Nat) (loans : List Loan) : Option Loan :=
  loans.find? (fun l => l.id == loan_id)

/-- The in-place update performed by `LoanTracker::update_repayment`
(`src/loan.rs`, lines 50–55) on the loaded loan:
`loan.last_repayment_date = Some(now)` and
`loan.status = if now > *loan.repayment_schedule.last().unwrap() { Repaid } else { Active }`.
`none` models the `unwrap` panic on an empty schedule. -/
def update_repayment_loan (now : Int) (loan : Loan) : Option Loan :=
  match loan.repayment_schedule.getLast? with
  | none => none
  | some lastDue =>
    some { loan with
            last_repayment_date := some now
            status := if lastDue < now then LoanStatus.Repaid else LoanStatus.Active }

/-- Errors `LoanTracker::update_repayment` can surface: `NotFound` models the
`QueryReturnedNoRows` error on a missing loan, `Panic` the `unwrap` on an
empty `repayment_schedule`. -/
inductive OpError
  | NotFound
  | Panic
deriving DecidableEq

/-- `LoanTracker::update_repayment` (`src/loan.rs`, lines 46–59) over the
store: load the loan (error on absence), update it, save it back. -/
def update_repayment (now : Int) (loan_id : Nat) (loans : List Loan) :
    Except OpError (List Loan) :=
  match load_loan loan_id loans with
  | none => Except.error OpError.NotFound
  | some loan =>
    match update_repayment_loan now loan with
    | none => Except.error OpError.Panic
    | some loan' => Except.ok (save_loan loan' loans)

/-- The per-loan body of `LoanTracker::flag_overdues` (`src/loan.rs`, lines
73–77): `if loan.status == Active && now > loan.repayment_schedule[0]`, flag
the loan `Overdue`.  Rust `&&` short-circuits, so the index is evaluated only
for `Active` loans; `none` models the out-of-bounds panic of
`repayment_schedule[0]` on an empty schedule. -/
def flag_loan (now : Int) (loan : Loan) : Option Loan :=
  if loan.status = LoanStatus.Active then
    match loan.repayment_schedule.head? with
    | none => none
    | some firstDue =>
      if firstDue < now then some { loan with status := LoanStatus.Overdue }
      else some loan
  else some loan

/-- `LoanTracker::flag_overdues` (`src/loan.rs`, lines 69–80): sweep all
stored loans, flagging each qualifying one.  Flagged loans are saved back
keyed on their unchanged `id`, so with distinct identifiers the final store is
the pointwise image of the sweep. -/
def flag_overdues (now : Int) : List Loan → Option (List Loan)
  | [] => some []
  | loan :: rest =>
    match flag_loan now loan with
    | none => none
    | some loan' =>
      match flag_overdues now rest with
      | none => none
      | some rest' => some (loan' :: rest')

/-- The `Ok` payload of the Rust `flag_overdues`, whose signature is
`pub fn flag_overdues(&self) -> Result<()>`: the unit value, carrying no
count. -/
def flag_overdues_result (now : Int) (loans : List Loan) : Option Unit :=
  (flag_overdues now loans).map (fun _ => ())

/-- The test `loan.status == Active && now > loan.repayment_schedule[0]` of
`flag_overdues`, as a Boolean predicate (false rather than a panic on an
empty schedule, for counting purposes). -/
def wouldFlag (now : Int) (loan : Loan) : Bool :=
  loan.status == LoanStatus.Active &&
    (match loan.repayment_schedule.head? with
     | some firstDue => firstDue < now
     | none => false)

/-- Modelled from the spec: `flagOverdues() -> count` — "Returns the number of
loans changed".  No function in `src/` computes this value (`flag_overdues`
returns `Result<()>`, and the handler in `src/api.rs` serializes that unit as
its `flagged_count` field); this definition follows the spec's words to state
what the return value should be. -/
def flagged_count (now : Int) (loans : List Loan) : Nat :=
  (loans.filter (fun l => wouldFlag now l)).length

/-- `RiskScorable::calculate_risk_score` for `Loan` (`src/models.rs`, lines
45–54): `0.8` when `Overdue`, else `0.2`. -/
def calculate_risk_score (loan : Loan) : ℚ :=
  if loan.status = LoanStatus.Overdue then 8/10 else 2/10

/-- `RecoveryEngine::predict_default` (`src/recovery.rs`, lines 13–15):
delegates to the trait method. -/
def predict_default (loan : Loan) : ℚ :=
  calculate_risk_score loan

/-- `RecoveryEngine::recommend_action` (`src/recovery.rs`, lines 17–23): a
`match` with ordered guards, first match wins. -/
def recommend_action (risk_score : ℚ) (repayment_history : Nat) : RecoveryAction :=
  if risk_score > 7/10 ∨ repayment_history > 2 then RecoveryAction.EscalateToCollection
  else if risk_score > 4/10 ∨ repayment_history > 0 then RecoveryAction.RenegotiateTerms
  else RecoveryAction.SendReminder

/-- The core operations a caller can invoke on the loan store, used to state
reachability invariants.  `create` carries the fresh identifier explicitly. -/
inductive Op
  | create (id borrower_id lender_id : Nat) (principal interest_rate : ℚ)
      (duration_months : Int)
  | record (loan_id : Nat)
  | flag
deriving DecidableEq

/-- One core operation applied to the store at instant `now`.  `none` models a
panic (no completed final state); a `NotFound` error from `update_repayment`
leaves the store unchanged.  The freshness test on `create` models
`Uuid::new_v4` never colliding with a stored identifier. -/
def apply_op (now : Int) (op : Op) (loans : List Loan) : Option (List Loan) :=
  match op with
  | Op.create id b l p r d =>
    if loans.any (fun x => x.id == id) then none
    else some (save_loan (create_loan id b l p r d now) loans)
  | Op.record lid =>
    match update_repayment now lid loans with
    | Except.ok loans' => some loans'
    | Except.error OpError.NotFound => some loans
    | Except.error OpError.Panic => none
  | Op.flag => flag_overdues now loans

/-- Stores reachable from the empty store by core operations executed at
non-decreasing instants. -/
inductive Reachable : Int → List Loan → Prop
  | init (t : Int) : Reachable t []
  | step {t loans t' loans'} (op : Op) :
      Reachable t loans → t ≤ t' → apply_op t' op loans = some loans' →
      Reachable t' loans'

/-- A concrete `Overdue` loan whose single installment (at instant 2592000)
is still in the future at instant 100; used as a witness input. -/
def exLoanOverdueFuture : Loan :=
  { id := 1
    borrower_id := 2
    lender_id := 3
    principal := 100
    interest_rate := 5
    disbursement_date := 0
    repayment_schedule := [2592000]
    start_date := 0
    last_repayment_date := none
    status := LoanStatus.Overdue }

/-- A second `Overdue` loan differing from `exLoanOverdueFuture` in every
non-status field; used to witness status-only dependence of the risk score. -/
def exLoanOverdueOther : Loan :=
  { id := 7
    borrower_id := 8
    lender_id := 9
    principal := 5000
    interest_rate := 12
    disbursement_date := 40
    repayment_schedule := [100, 200]
    start_date := 40
    last_repayment_date := some 90
    status := LoanStatus.Overdue }

/-- A store holding one `Active` loan whose first installment (instant 50) is
past at instant 100, so a sweep at instant 100 flags exactly one loan. -/
def exStoreOneDue : List Loan :=
  [{ id := 1
     borrower_id := 2
     lender_id := 3
     principal := 100
     interest_rate := 5
     disbursement_date := 0
     repayment_schedule := [50]
     start_date := 0
     last_repayment_date := none
     status := LoanStatus.Active }]

/-- The store after sweeping `exStoreOneDue` at instant 100: the single loan
is flagged `Overdue`. -/
def exStoreOneDueFlagged : List Loan :=
  [{ id := 1
     borrower_id := 2
     lender_id := 3
     principal := 100
     interest_rate := 5
     disbursement_date := 0
     repayment_schedule := [50]
     start_date := 0
     last_repayment_date := none
     status := LoanStatus.Overdue }]

/-- Per-loan reachability invariant at instant `t`: a `Repaid` loan owes its
status to a repayment recorded strictly after its final installment at or
before `t`, and no reachable loan is `Defaulted`. -/
def LoanInv (t : Int) (loan : Loan) : Prop :=
  (loan.status = LoanStatus.Repaid →
    ∃ lastDue, loan.repayment_schedule.getLast? = some lastDue ∧ lastDue < t) ∧
  loan.status ≠ LoanStatus.Defaulted

/-- Store reachability invariant: pairwise-distinct identifiers (fresh
`Uuid`s, preserved by every update) plus the per-loan invariant. -/
def StoreInv (t : Int) (loans : List Loan) : Prop :=
  (loans.map (fun l => l.id)).Nodup ∧ ∀ l ∈ loans, LoanInv t l

/-- The loan created at instant 0 with a one-month duration; its single
installment falls due at instant 2592000 (30 days). -/
def exLoanActive30 : Loan := create_loan 1 2 3 100 5 1 0

/-- `exLoanActive30` after a repayment recorded at instant 2600000, past its
final installment: `Repaid`. -/
def exLoanRepaid : Loan :=
  { exLoanActive30 with
      last_repayment_date := some 2600000
      status := LoanStatus.Repaid }

/-- `exLoanRepaid` after a further repayment recorded at instant 2600001: it
stays `Repaid`. -/
def exLoanRepaid2 : Loan :=
  { exLoanRepaid with last_repayment_date := some 2600001 }

/-- C1: on any stored loan with a non-empty repayment schedule,
`update_repayment` sets `last_repayment_date` to the current instant and sets
`status` to `Repaid` exactly when `now` is strictly after the last scheduled
installment, to `Active` otherwise — for every prior status (the statement
quantifies over all loans, so in particular over `Overdue` ones whose final
installment is still in the future, which are reset to `Active`). -/
theorem update_repayment_sets_now_and_final_due (now : Int) (loan : Loan)
    (h : loan.repayment_schedule ≠ []) :
    ∃ lastDue, loan.repayment_schedule.getLast? = some lastDue ∧
      update_repayment_loan now loan =
        some { loan with
                last_repayment_date := some now
                status := if lastDue < now then LoanStatus.Repaid
                          else LoanStatus.Active } := by
  cases hd : loan.repayment_schedule.getLast? with
  | none =>
    exact absurd (List.getLast?_eq_none_iff.mp hd) h
  | some lastDue =>
    exact ⟨lastDue, rfl, by simp [update_repayment_loan, hd]⟩

/-- Witness for C1 at a concrete `Overdue` loan whose final installment is in
the future: the update resets it to `Active`. -/
theorem update_repayment_sets_now_and_final_due_witness :
    ∃ lastDue, exLoanOverdueFuture.repayment_schedule.getLast? = some lastDue ∧
      update_repayment_loan 100 exLoanOverdueFuture =
        some { exLoanOverdueFuture with
                last_repayment_date := some 100
                status := if lastDue < 100 then LoanStatus.Repaid
                          else LoanStatus.Active } :=
  update_repayment_sets_now_and_final_due 100 exLoanOverdueFuture (by decide)

/-- C3: for every `duration_months ≥ 1`, the loan built by `create_loan` has
a repayment schedule of exactly `duration_months` entries, the k-th entry
(k = 1..duration_months) being exactly `disbursement_date + 30*k` days, and
the entries are strictly ascending. -/
theorem create_loan_schedule_spec (id b l : Nat) (p r : ℚ) (now d : Int)
    (h : 1 ≤ d) :
    (((create_loan id b l p r d now).repayment_schedule).length : Int) = d ∧
    (∀ k : Nat, 1 ≤ k → (k : Int) ≤ d →
      ((create_loan id b l p r d now).repayment_schedule)[k-1]? =
        some (now + Duration.days (30 * (k : Int)))) ∧
    ((create_loan id b l p r d now).repayment_schedule).Pairwise (· < ·) := by
  refine ⟨?_, ?_, ?_⟩
  · have hlen : (buildSchedule now d).length = d.toNat := by
      simp only [buildSchedule, List.length_map, List.length_range]
    show (((buildSchedule now d).length : Nat) : Int) = d
    rw [hlen]
    omega
  · intro k hk1 hkd
    have hklt : k - 1 < d.toNat := by omega
    show ((List.range d.toNat).map
      (fun (m : Nat) => now + Duration.days (30 * ((m : Int) + 1))))[k-1]? = _
    rw [List.getElem?_map, List.getElem?_range hklt]
    show some (now + Duration.days (30 * (((k - 1 : Nat) : Int) + 1))) = _
    simp only [Option.some.injEq, Duration.days]
    omega
  · show ((List.range d.toNat).map
      (fun (m : Nat) => now + Duration.days (30 * ((m : Int) + 1)))).Pairwise (· < ·)
    refine List.Pairwise.map _ (fun a b hab => ?_) (List.pairwise_lt_range d.toNat)
    simp only [Duration.days]
    omega

/-- Witness for C3 at `duration_months = 2`. -/
theorem create_loan_schedule_spec_witness :
    (((create_loan 1 2 3 100 5 2 0).repayment_schedule).length : Int) = 2 ∧
    (∀ k : Nat, 1 ≤ k → (k : Int) ≤ 2 →
      ((create_loan 1 2 3 100 5 2 0).repayment_schedule)[k-1]? =
        some (0 + Duration.days (30 * (k : Int)))) ∧
    ((create_loan 1 2 3 100 5 2 0).repayment_schedule).Pairwise (· < ·) :=
  create_loan_schedule_spec 1 2 3 100 5 0 2 (by decide)

/-- C5: `create_loan` performs no validation of `duration_months` — called
with `duration_months = 0` it succeeds, producing an `Active` loan whose
repayment schedule is empty, instead of failing with `InvalidInput` as the
specification requires. -/
theorem create_loan_zero_duration_succeeds :
    (create_loan 1 2 3 100 5 0 100).repayment_schedule = [] ∧
    (create_loan 1 2 3 100 5 0 100).status = LoanStatus.Active := by
  exact ⟨rfl, rfl⟩

/-- C6: for a loan with a non-empty repayment schedule, the schedule accesses
of `update_repayment` (last entry) and of the `flag_overdues` body (first
entry) are in bounds and cannot panic; for any loan produced by `create_loan`
with `duration_months ≤ 0` (an `Active` loan with an empty schedule), both
accesses hit the panic branch. -/
theorem schedule_access_bounds :
    (∀ (now : Int) (loan : Loan), loan.repayment_schedule ≠ [] →
      (update_repayment_loan now loan).isSome ∧ (flag_loan now loan).isSome) ∧
    (∀ (now now2 : Int) (id b l : Nat) (p r : ℚ) (d : Int), d ≤ 0 →
      update_repayment_loan now2 (create_loan id b l p r d now) = none ∧
      flag_loan now2 (create_loan id b l p r d now) = none) := by
  constructor
  · intro now loan h
    cases hs : loan.repayment_schedule with
    | nil => exact absurd hs h
    | cons a as =>
      constructor
      · have : loan.repayment_schedule.getLast? = some (List.getLast (a :: as) (by simp)) := by
          rw [hs]; exact List.getLast?_eq_getLast _ _
        simp [update_repayment_loan, this]
      · by_cases hst : loan.status = LoanStatus.Active
        · have : loan.repayment_schedule.head? = some a := by rw [hs]; rfl
          rcases lt_or_le a now with hlt | hle
          · simp [flag_loan, hst, this, hlt]
          · simp [flag_loan, hst, this, not_lt.mpr hle]
        · simp [flag_loan, hst]
  · intro now now2 id b l p r d hd
    have hsched : (create_loan id b l p r d now).repayment_schedule = [] := by
      simp [create_loan, buildSchedule, Int.toNat_of_nonpos hd]
    constructor
    · simp [update_repayment_loan, hsched]
    · have hst : (create_loan id b l p r d now).status = LoanStatus.Active := rfl
      simp [flag_loan, hst, hsched]

/-- Witness for C6: in-bounds accesses on a loan with a one-entry schedule,
both panic branches on a zero-duration loan. -/
theorem schedule_access_bounds_witness :
    ((update_repayment_loan 100 exLoanOverdueFuture).isSome ∧
      (flag_loan 100 exLoanOverdueFuture).isSome) ∧
    (update_repayment_loan 100 (create_loan 1 2 3 100 5 0 0) = none ∧
      flag_loan 100 (create_loan 1 2 3 100 5 0 0) = none) :=
  ⟨schedule_access_bounds.1 100 exLoanOverdueFuture (by decide),
   schedule_access_bounds.2 0 100 1 2 3 100 5 0 (by decide)⟩

/-- C8: `calculate_risk_score` returns exactly 0.8 for `Overdue` loans and
exactly 0.2 for every other status; `predict_default` delegates to it; and
the score depends on no field of the loan other than `status`. -/
theorem calculate_risk_score_spec :
    (∀ loan : Loan, calculate_risk_score loan =
      if loan.status = LoanStatus.Overdue then 8/10 else 2/10) ∧
    (∀ loan : Loan, predict_default loan = calculate_risk_score loan) ∧
    (∀ l₁ l₂ : Loan, l₁.status = l₂.status →
      calculate_risk_score l₁ = calculate_risk_score l₂) := by
  refine ⟨fun loan => rfl, fun loan => rfl, fun l₁ l₂ h => ?_⟩
  simp [calculate_risk_score, h]

/-- Witness for C8: two `Overdue` loans differing in every other field get
the same score, 0.8. -/
theorem calculate_risk_score_spec_witness :
    calculate_risk_score exLoanOverdueFuture =
      calculate_risk_score exLoanOverdueOther :=
  calculate_risk_score_spec.2.2 exLoanOverdueFuture exLoanOverdueOther rfl

/-- C9: `recommend_action` evaluates its guards in order, first match wins
(`EscalateToCollection` when `risk > 0.7` or `missed > 2`, else
`RenegotiateTerms` when `risk > 0.4` or `missed > 0`, else `SendReminder`),
with the four concrete evaluations the specification lists. -/
theorem recommend_action_spec :
    (∀ (score : ℚ) (hist : Nat), recommend_action score hist =
      if score > 7/10 ∨ hist > 2 then RecoveryAction.EscalateToCollection
      else if score > 4/10 ∨ hist > 0 then RecoveryAction.RenegotiateTerms
      else RecoveryAction.SendReminder) ∧
    recommend_action (8/10) 0 = RecoveryAction.EscalateToCollection ∧
    recommend_action (5/10) 0 = RecoveryAction.RenegotiateTerms ∧
    recommend_action (2/10) 0 = RecoveryAction.SendReminder ∧
    recommend_action (1/10) 3 = RecoveryAction.EscalateToCollection := by
  refine ⟨fun score hist => rfl, ?_, ?_, ?_, ?_⟩ <;>
    simp [recommend_action] <;> norm_num

/-- C10: the composition the API handler actually invokes,
`recommend_action (predict_default loan) 0`, yields `EscalateToCollection`
exactly for `Overdue` loans and `SendReminder` for every other status;
`RenegotiateTerms` is unreachable through it. -/
theorem recommend_composed_spec :
    ∀ loan : Loan,
      recommend_action (predict_default loan) 0 =
        (if loan.status = LoanStatus.Overdue then
          RecoveryAction.EscalateToCollection
        else RecoveryAction.SendReminder) ∧
      recommend_action (predict_default loan) 0 ≠
        RecoveryAction.RenegotiateTerms := by
  intro loan
  have hmain : recommend_action (predict_default loan) 0 =
      (if loan.status = LoanStatus.Overdue then
        RecoveryAction.EscalateToCollection
      else RecoveryAction.SendReminder) := by
    by_cases h : loan.status = LoanStatus.Overdue <;>
      simp [recommend_action, predict_default, calculate_risk_score, h] <;>
      norm_num
  refine ⟨hmain, ?_⟩
  rw [hmain]
  by_cases h : loan.status = LoanStatus.Overdue <;> simp [h]

/-- Dissection of the per-loan sweep body: on success the loan was either
flagged (it was `Active` with its first installment strictly past) or left
exactly unchanged. -/
theorem flag_loan_cases {now : Int} {loan loan' : Loan}
    (h : flag_loan now loan = some loan') :
    (loan.status = LoanStatus.Active ∧
      (∃ firstDue, loan.repayment_schedule.head? = some firstDue ∧
        firstDue < now) ∧
      loan' = { loan with status := LoanStatus.Overdue }) ∨
    ((loan.status ≠ LoanStatus.Active ∨
      (∃ firstDue, loan.repayment_schedule.head? = some firstDue ∧
        ¬ firstDue < now)) ∧
      loan' = loan) := by
  unfold flag_loan at h
  split at h
  next hst =>
    split at h
    next hh => exact absurd h (by simp)
    next firstDue hh =>
      split at h
      next hlt =>
        left
        simp only [Option.some.injEq] at h
        exact ⟨hst, ⟨firstDue, hh, hlt⟩, h.symm⟩
      next hnlt =>
        right
        simp only [Option.some.injEq] at h
        exact ⟨Or.inr ⟨firstDue, hh, hnlt⟩, h.symm⟩
  next hst =>
    right
    simp only [Option.some.injEq] at h
    exact ⟨Or.inl hst, h.symm⟩

/-- The sweep body never changes a loan's identifier. -/
theorem flag_loan_some_id {now : Int} {loan loan' : Loan}
    (h : flag_loan now loan = some loan') : loan'.id = loan.id := by
  rcases flag_loan_cases h with ⟨_, _, rfl⟩ | ⟨_, rfl⟩ <;> rfl

/-- The sweep body is idempotent: its output is a fixed point. -/
theorem flag_loan_idem {now : Int} {loan loan' : Loan}
    (h : flag_loan now loan = some loan') :
    flag_loan now loan' = some loan' := by
  rcases flag_loan_cases h with ⟨hst, ⟨d, hd, hlt⟩, rfl⟩ | ⟨hcond, rfl⟩
  · simp [flag_loan]
  · exact h

/-- C2: on a successful sweep, each stored loan is flagged `Overdue` exactly
when it was `Active` with its first scheduled installment strictly before
`now`, while every other loan — in particular those already `Overdue`,
`Repaid`, or `Defaulted` — is left exactly unchanged; and a second sweep at
the same instant returns the store unchanged (changes zero additional
loans). -/
theorem flag_overdues_spec (now : Int) (loans loans' : List Loan)
    (h : flag_overdues now loans = some loans') :
    List.Forall₂ (fun loan loan' =>
      (loan.status = LoanStatus.Active ∧
        (∃ firstDue, loan.repayment_schedule.head? = some firstDue ∧
          firstDue < now) ∧
        loan' = { loan with status := LoanStatus.Overdue }) ∨
      ((loan.status ≠ LoanStatus.Active ∨
        (∃ firstDue, loan.repayment_schedule.head? = some firstDue ∧
          ¬ firstDue < now)) ∧
        loan' = loan)) loans loans' ∧
    flag_overdues now loans' = some loans' := by
  induction loans generalizing loans' with
  | nil =>
    simp only [flag_overdues, Option.some.injEq] at h
    subst h
    exact ⟨List.Forall₂.nil, rfl⟩
  | cons loan rest ih =>
    unfold flag_overdues at h
    cases hfl : flag_loan now loan with
    | none => rw [hfl] at h; exact absurd h (by simp)
    | some loan1 =>
      rw [hfl] at h
      cases hrest : flag_overdues now rest with
      | none => rw [hrest] at h; exact absurd h (by simp)
      | some rest1 =>
        rw [hrest] at h
        simp only [Option.some.injEq] at h
        subst h
        obtain ⟨hallrest, hidem⟩ := ih rest1 hrest
        refine ⟨List.Forall₂.cons (flag_loan_cases hfl) hallrest, ?_⟩
        unfold flag_overdues
        rw [flag_loan_idem hfl, hidem]

/-- Witness for C2: sweeping the already-swept store `exStoreOneDueFlagged`
returns it unchanged. -/
theorem flag_overdues_spec_witness :
    flag_overdues 100 exStoreOneDueFlagged = some exStoreOneDueFlagged :=
  (flag_overdues_spec 100 exStoreOneDue exStoreOneDueFlagged (by rfl)).2

/-- C4: at a store where the sweep changes exactly one loan, the Rust
`flag_overdues` still completes with the unit value as its `Ok` payload — its
signature is `Result<()>` and it carries no count, while the number of loans
changed (which the specification says it returns) is 1. -/
theorem flag_overdues_returns_no_count :
    flagged_count 100 exStoreOneDue = 1 ∧
    flag_overdues_result 100 exStoreOneDue = some () := by
  constructor <;> rfl

/-- Dissection of the repayment update on success: the schedule was
non-empty and the loan got the literal update of `update_repayment`. -/
theorem update_repayment_loan_parts {now : Int} {loan loan' : Loan}
    (h : update_repayment_loan now loan = some loan') :
    ∃ lastDue, loan.repayment_schedule.getLast? = some lastDue ∧
      loan' = { loan with
                  last_repayment_date := some now
                  status := if lastDue < now then LoanStatus.Repaid
                            else LoanStatus.Active } := by
  unfold update_repayment_loan at h
  split at h
  next => exact absurd h (by simp)
  next lastDue hd =>
    simp only [Option.some.injEq] at h
    exact ⟨lastDue, hd, h.symm⟩

/-- Dissection of the store-level repayment update on success. -/
theorem update_repayment_ok {now : Int} {lid : Nat} {loans loans' : List Loan}
    (h : update_repayment now lid loans = Except.ok loans') :
    ∃ loan loan', load_loan lid loans = some loan ∧
      update_repayment_loan now loan = some loan' ∧
      loans' = save_loan loan' loans := by
  unfold update_repayment at h
  split at h
  next => exact absurd h (by simp)
  next loan hload =>
    split at h
    next => exact absurd h (by simp)
    next loan' hupd =>
      simp only [Except.ok.injEq] at h
      exact ⟨loan, loan', hload, hupd, h.symm⟩

/-- Membership in a saved store: the record written or an old record. -/
theorem mem_save_loan {loan l' : Loan} {loans : List Loan}
    (h : l' ∈ save_loan loan loans) : l' = loan ∨ l' ∈ loans := by
  unfold save_loan at h
  split at h
  · obtain ⟨x, hx, hxe⟩ := List.mem_map.mp h
    by_cases hid : x.id = loan.id
    · rw [if_pos (by simp [hid])] at hxe
      exact Or.inl hxe.symm
    · rw [if_neg (by simp [hid])] at hxe
      exact Or.inr (hxe ▸ hx)
  · rcases List.mem_append.mp h with hmem | hmem
    · exact Or.inr hmem
    · simp only [List.mem_singleton] at hmem
      exact Or.inl hmem

/-- Replacing a record whose identifier is already stored leaves the
identifier column of the store unchanged. -/
theorem save_loan_map_id {loan : Loan} {loans : List Loan}
    (h : loans.any (fun l => l.id == loan.id) = true) :
    (save_loan loan loans).map (fun l => l.id) = loans.map (fun l => l.id) := by
  unfold save_loan
  rw [if_pos h, List.map_map]
  refine List.map_congr_left ?_
  intro x hx
  show (if x.id == loan.id then loan else x).id = x.id
  by_cases hid : x.id = loan.id
  · simp [hid]
  · simp [hid]

/-- Each element of the right list of a `Forall₂` is related to some element
of the left list. -/
theorem forall₂_mem_right {α β : Type} {R : α → β → Prop} :
    ∀ {xs : List α} {ys : List β}, List.Forall₂ R xs ys →
      ∀ y ∈ ys, ∃ x ∈ xs, R x y := by
  intro xs ys h
  induction h with
  | nil =>
    intro y hy
    exact absurd hy (by simp)
  | cons hR _ ih =>
    intro y hy
    rcases List.mem_cons.mp hy with rfl | hmem
    · exact ⟨_, List.mem_cons_self _ _, hR⟩
    · obtain ⟨x, hx, hRx⟩ := ih y hmem
      exact ⟨x, List.mem_cons_of_mem _ hx, hRx⟩

/-- A successful sweep relates input and output stores pointwise by the
per-loan body. -/
theorem flag_overdues_forall₂ {now : Int} :
    ∀ {loans loans' : List Loan}, flag_overdues now loans = some loans' →
      List.Forall₂ (fun l l' => flag_loan now l = some l') loans loans' := by
  intro loans
  induction loans with
  | nil =>
    intro loans' h
    simp only [flag_overdues, Option.some.injEq] at h
    subst h
    exact List.Forall₂.nil
  | cons loan rest ih =>
    intro loans' h
    unfold flag_overdues at h
    cases hfl : flag_loan now loan with
    | none => rw [hfl] at h; exact absurd h (by simp)
    | some loan1 =>
      rw [hfl] at h
      cases hrest : flag_overdues now rest with
      | none => rw [hrest] at h; exact absurd h (by simp)
      | some rest1 =>
        rw [hrest] at h
        simp only [Option.some.injEq] at h
        subst h
        exact List.Forall₂.cons hfl (ih hrest)

/-- A sweep-related pair of stores has the same identifier column. -/
theorem forall₂_map_id {now : Int} {loans loans' : List Loan}
    (h : List.Forall₂ (fun l l' => flag_loan now l = some l') loans loans') :
    loans'.map (fun l => l.id) = loans.map (fun l => l.id) := by
  induction h with
  | nil => rfl
  | cons hR _ ih => simp only [List.map_cons, ih, flag_loan_some_id hR]

/-- The sweep body fixes every loan that is not `Active`. -/
theorem flag_loan_not_active {now : Int} {loan : Loan}
    (h : loan.status ≠ LoanStatus.Active) : flag_loan now loan = some loan := by
  simp [flag_loan, h]

/-- The per-loan invariant only weakens as the clock advances. -/
theorem LoanInv_mono {t t' : Int} {loan : Loan} (h : LoanInv t loan)
    (hle : t ≤ t') : LoanInv t' loan := by
  refine ⟨fun hst => ?_, h.2⟩
  obtain ⟨d, hd, hlt⟩ := h.1 hst
  exact ⟨d, hd, lt_of_lt_of_le hlt hle⟩

/-- Every successfully completed core operation at a later instant preserves
the store invariant. -/
theorem apply_op_inv {t t' : Int} {op : Op} {loans loans' : List Loan}
    (hinv : StoreInv t loans) (hle : t ≤ t')
    (h : apply_op t' op loans = some loans') : StoreInv t' loans' := by
  obtain ⟨hnodup, hall⟩ := hinv
  cases op with
  | create cid cb cl cp cr cd =>
    simp only [apply_op] at h
    split at h
    next => exact absurd h (by simp)
    next hany =>
      simp only [Option.some.injEq] at h
      subst h
      have hany2 : ¬(loans.any
          (fun x => x.id == (create_loan cid cb cl cp cr cd t').id) = true) :=
        hany
      have hfresh : ∀ x ∈ loans, x.id ≠ cid := by
        intro x hx hxe
        exact hany (List.any_eq_true.mpr ⟨x, hx, by simp [hxe]⟩)
      have hsave : save_loan (create_loan cid cb cl cp cr cd t') loans
          = loans ++ [create_loan cid cb cl cp cr cd t'] := by
        unfold save_loan
        rw [if_neg hany2]
      rw [hsave]
      constructor
      · rw [List.map_append]
        refine List.Nodup.append hnodup (List.nodup_singleton _) ?_
        intro a ha hb
        simp only [List.map_cons, List.map_nil, List.mem_singleton] at hb
        obtain ⟨x, hx, hxa⟩ := List.mem_map.mp ha
        refine hfresh x hx ?_
        rw [hxa, hb]
        rfl
      · intro x hx
        rcases List.mem_append.mp hx with hold | hnew
        · exact LoanInv_mono (hall x hold) hle
        · simp only [List.mem_singleton] at hnew
          subst hnew
          exact ⟨fun hst => absurd hst (by simp [create_loan]),
            by simp [create_loan]⟩
  | record lid =>
    simp only [apply_op] at h
    split at h
    next loans2 heq =>
      simp only [Option.some.injEq] at h
      subst h
      obtain ⟨loan, loan', hload, hupd, rfl⟩ := update_repayment_ok heq
      unfold load_loan at hload
      have hmem : loan ∈ loans := List.mem_of_find?_eq_some hload
      obtain ⟨lastDue, hld, rfl⟩ := update_repayment_loan_parts hupd
      have hany : loans.any
          (fun x => x.id == ({ loan with
              last_repayment_date := some t'
              status := if lastDue < t' then LoanStatus.Repaid
                        else LoanStatus.Active } : Loan).id) = true :=
        List.any_eq_true.mpr ⟨loan, hmem, by simp⟩
      constructor
      · rw [save_loan_map_id hany]
        exact hnodup
      · intro x hx
        rcases mem_save_loan hx with rfl | hold
        · constructor
          · intro hst
            have hst2 : (if lastDue < t' then LoanStatus.Repaid
                else LoanStatus.Active) = LoanStatus.Repaid := hst
            by_cases hlt : lastDue < t'
            · exact ⟨lastDue, hld, hlt⟩
            · rw [if_neg hlt] at hst2
              exact absurd hst2 (by simp)
          · show (if lastDue < t' then LoanStatus.Repaid
                else LoanStatus.Active) ≠ LoanStatus.Defaulted
            by_cases hlt : lastDue < t' <;> simp [hlt]
        · exact LoanInv_mono (hall x hold) hle
    next heq =>
      simp only [Option.some.injEq] at h
      subst h
      exact ⟨hnodup, fun x hx => LoanInv_mono (hall x hx) hle⟩
    next heq => exact absurd h (by simp)
  | flag =>
    simp only [apply_op] at h
    have hf := flag_overdues_forall₂ h
    constructor
    · rw [forall₂_map_id hf]
      exact hnodup
    · intro l' hl'
      obtain ⟨m, hm, hR⟩ := forall₂_mem_right hf l' hl'
      rcases flag_loan_cases hR with ⟨hst, _, rfl⟩ | ⟨_, rfl⟩
      · exact ⟨fun hrep => absurd hrep (by simp), by simp⟩
      · exact LoanInv_mono (hall _ hm) hle

/-- Every reachable store satisfies the invariant. -/
theorem reachable_inv {t : Int} {loans : List Loan}
    (h : Reachable t loans) : StoreInv t loans := by
  induction h with
  | init t => exact ⟨by simp, by intro l hl; exact absurd hl (by simp)⟩
  | step op hre hle happ ih => exact apply_op_inv ih hle happ

/-- C7: along any sequence of core operations from the empty store with a
non-decreasing clock, no completed operation moves a loan whose status is
`Repaid` or `Defaulted` to a different status, and no loan in any resulting
store is ever `Defaulted` (no core operation sets that status). -/
theorem terminal_statuses_preserved {t t' : Int} {op : Op}
    {loans loans' : List Loan}
    (hreach : Reachable t loans) (hle : t ≤ t')
    (h : apply_op t' op loans = some loans') :
    (∀ l ∈ loans,
      (l.status = LoanStatus.Repaid ∨ l.status = LoanStatus.Defaulted) →
      ∀ l' ∈ loans', l'.id = l.id → l'.status = l.status) ∧
    (∀ l' ∈ loans', l'.status ≠ LoanStatus.Defaulted) := by
  have hinv := reachable_inv hreach
  have hinv' := apply_op_inv hinv hle h
  obtain ⟨hnodup, hall⟩ := hinv
  refine ⟨?_, fun l' hl' => (hinv'.2 l' hl').2⟩
  intro l hl hterm l' hl' hid
  have hinj := List.inj_on_of_nodup_map hnodup
  rcases hterm with hrep | hdef
  swap
  · exact absurd hdef (hall l hl).2
  cases op with
  | create cid cb cl cp cr cd =>
    simp only [apply_op] at h
    split at h
    next => exact absurd h (by simp)
    next hany =>
      simp only [Option.some.injEq] at h
      subst h
      have hany2 : ¬(loans.any
          (fun x => x.id == (create_loan cid cb cl cp cr cd t').id) = true) :=
        hany
      have hfresh : ∀ x ∈ loans, x.id ≠ cid := by
        intro x hx hxe
        exact hany (List.any_eq_true.mpr ⟨x, hx, by simp [hxe]⟩)
      have hsave : save_loan (create_loan cid cb cl cp cr cd t') loans
          = loans ++ [create_loan cid cb cl cp cr cd t'] := by
        unfold save_loan
        rw [if_neg hany2]
      rw [hsave] at hl'
      rcases List.mem_append.mp hl' with hold | hnew
      · rw [hinj hold hl hid]
      · simp only [List.mem_singleton] at hnew
        subst hnew
        exact absurd hid.symm (hfresh l hl)
  | record lid =>
    simp only [apply_op] at h
    split at h
    next loans2 heq =>
      simp only [Option.some.injEq] at h
      subst h
      obtain ⟨loan, loan', hload, hupd, rfl⟩ := update_repayment_ok heq
      unfold load_loan at hload
      have hmem : loan ∈ loans := List.mem_of_find?_eq_some hload
      obtain ⟨lastDue, hld, rfl⟩ := update_repayment_loan_parts hupd
      rcases mem_save_loan hl' with heq2 | hold
      · have hidl : loan.id = l.id := by
          rw [← hid, heq2]
        have hll : loan = l := hinj hmem hl hidl
        subst hll
        obtain ⟨lastDue2, hld2, hlt2⟩ := (hall loan hmem).1 hrep
        have hdd : lastDue = lastDue2 := Option.some.inj (hld.symm.trans hld2)
        have hlt : lastDue < t' := by
          rw [hdd]
          exact lt_of_lt_of_le hlt2 hle
        rw [heq2]
        show (if lastDue < t' then LoanStatus.Repaid
            else LoanStatus.Active) = loan.status
        rw [if_pos hlt, hrep]
      · rw [hinj hold hl hid]
    next heq =>
      simp only [Option.some.injEq] at h
      subst h
      rw [hinj hl' hl hid]
    next heq => exact absurd h (by simp)
  | flag =>
    simp only [apply_op] at h
    obtain ⟨m, hm, hR⟩ := forall₂_mem_right (flag_overdues_forall₂ h) l' hl'
    have hml : m = l := by
      refine hinj hm hl ?_
      rw [← flag_loan_some_id hR]
      exact hid
    subst hml
    have hfix : flag_loan t' m = some m :=
      flag_loan_not_active (by rw [hrep]; simp)
    rw [hfix] at hR
    rw [Option.some.inj hR]

/-- Witness for C7: a two-step reachable run — create a one-month loan at
instant 0, record a repayment at instant 2600000 turning it `Repaid` — then a
further repayment at instant 2600001, after which the loan is still
`Repaid`. -/
theorem terminal_statuses_preserved_witness :
    (∀ l ∈ [exLoanRepaid],
      (l.status = LoanStatus.Repaid ∨ l.status = LoanStatus.Defaulted) →
      ∀ l' ∈ [exLoanRepaid2], l'.id = l.id → l'.status = l.status) ∧
    (∀ l' ∈ [exLoanRepaid2], l'.status ≠ LoanStatus.Defaulted) :=
  @terminal_statuses_preserved 2600000 2600001 (Op.record 1)
    [exLoanRepaid] [exLoanRepaid2]
    (@Reachable.step 0 [exLoanActive30] 2600000 [exLoanRepaid] (Op.record 1)
      (@Reachable.step 0 [] 0 [exLoanActive30] (Op.create 1 2 3 100 5 1)
        (Reachable.init 0) (by decide) (by decide))
      (by decide) (by decide))
    (by decide) (by decide)

end SmartLoanRecovery
